import Mathlib

/-!
Verification of the GameEngine physics kernel of the UofG Robotics TDP
repository: a shallow embedding of `src/GameEngine/ball_model.py`
(`BallBasicModel`) and `src/GameEngine/robot_model.py` (`RobotBasicModel`),
with theorems settling the specified behaviour of the ball integrator, the
four ball collision resolvers, the differential-drive robot step and the
collision-restricted robot step.

Python floats are modelled as real numbers.  A Python float division whose
divisor is zero raises `ZeroDivisionError`; operations containing such a
division are therefore embedded as `Option`-valued functions that return
`none` exactly when some executed division has a zero divisor, and `some`
of the updated state otherwise.  Operations with no fallible division are
embedded as plain functions.
-/

open Real

/-- Mutable state of `BallBasicModel`: position and velocity components. -/
structure Ball where
  x : ℝ
  y : ℝ
  vx : ℝ
  vy : ℝ

/-- Construction parameters of `BallBasicModel.__init__`. -/
structure BallParams where
  dt : ℝ
  friction : ℝ
  mass : ℝ
  bounce : ℝ
  radius : ℝ
  maxVel : ℝ

/-- The default arguments of `BallBasicModel.__init__`:
`dt=0.1, friction=0.01, mass=0.1, vel_bounce_coef=0.8, radius=0.01,
ball_max_vel=3`. -/
def defaultBallParams : BallParams :=
  { dt := 0.1, friction := 0.01, mass := 0.1, bounce := 0.8,
    radius := 0.01, maxVel := 3 }

/-- Embedding of `BallBasicModel.step` (ball_model.py lines 60-79).  Free flight under
linear friction: `acc = -vel*friction/mass`; if `|acc|` exceeds the fixed
threshold `0.01` the acceleration is decomposed along the velocity
direction (dividing by `vel`), otherwise it is zero.  The division by
`mass` happens unconditionally in the source, so `mass = 0` raises;
inside the branch the source divides by `vel`. -/
noncomputable def ballStep (p : BallParams) (s : Ball) : Option Ball :=
  if p.mass = 0 then none else
  let vel := Real.sqrt (s.vx ^ 2 + s.vy ^ 2)
  let acc := -vel * p.friction / p.mass
  if 0.01 < |acc| then
    if vel = 0 then none else
    let accX := acc * s.vx / vel
    let accY := acc * s.vy / vel
    some { x := s.x + s.vx * p.dt + 0.5 * accX * p.dt ^ 2,
           y := s.y + s.vy * p.dt + 0.5 * accY * p.dt ^ 2,
           vx := s.vx + accX * p.dt,
           vy := s.vy + accY * p.dt }
  else
    some { x := s.x + s.vx * p.dt,
           y := s.y + s.vy * p.dt,
           vx := s.vx,
           vy := s.vy }

/-- Embedding of `BallBasicModel._wall_collision` (ball_model.py lines 91-102): two
independent string tests, each multiplying one velocity component by
`-1 * vel_bounce_coefficient`. -/
noncomputable def wallCollision (p : BallParams) (s : Ball)
    (wallOrientation : String) : Ball :=
  let s1 := if wallOrientation = "vertical" ∨ wallOrientation = "corner"
    then { s with vx := s.vx * (-1 * p.bounce) } else s
  if wallOrientation = "horizontal" ∨ wallOrientation = "corner"
    then { s1 with vy := s1.vy * (-1 * p.bounce) } else s1

/-- Embedding of `BallBasicModel._receive_collision` (ball_model.py lines 191-198):
the ball velocity is set to the other body's velocity. -/
def receiveCollision (s : Ball) (pvx pvy : ℝ) : Ball :=
  { s with vx := pvx, vy := pvy }

/-- Embedding of `BallBasicModel._kick_collision` (ball_model.py lines 174-189): the
ball is kicked away from the other body along the connecting line with
speed `min(kick_vel, max_vel)`.  The source divides by
`diff = sqrt(dx**2 + dy**2)` with no guard. -/
noncomputable def kickCollision (p : BallParams) (s : Ball)
    (px py kickVel : ℝ) : Option Ball :=
  let dx := s.x - px
  let dy := s.y - py
  let diff := Real.sqrt (dx ^ 2 + dy ^ 2)
  if diff = 0 then none else
  let kv := min kickVel p.maxVel
  some { s with vx := kv * dx / diff, vy := kv * dy / diff }

/-! Intermediates of `BallBasicModel._elastic_collision_with_round_player`
(ball_model.py lines 104-172), named after the source variables.  The
branch test throughout is the source's `self._x_vel >= 0.001`
(`move_vel_threshold`), a signed comparison with no `abs`. -/

/-- Source line 127: slope `k = self._y_vel / self._x_vel`. -/
noncomputable def elK (s : Ball) : ℝ := s.vy / s.vx

/-- Source line 128: `M = k * self._x_pos - self._y_pos + player_pos_y`. -/
noncomputable def elM (s : Ball) (py : ℝ) : ℝ := elK s * s.x - s.y + py

/-- Quadratic coefficient `a` (source lines 125-135). -/
noncomputable def elA (s : Ball) : ℝ :=
  if 0.001 ≤ s.vx then 1 + (elK s) ^ 2 else 1

/-- Quadratic coefficient `b` (source lines 125-135). -/
noncomputable def elB (s : Ball) (px py : ℝ) : ℝ :=
  if 0.001 ≤ s.vx then -2 * (px + elM s py * elK s) else -2 * py

/-- Quadratic coefficient `c` (source lines 125-135). -/
noncomputable def elC (s : Ball) (px py pr : ℝ) : ℝ :=
  if 0.001 ≤ s.vx then px ^ 2 + (elM s py) ^ 2 - pr ^ 2
  else py ^ 2 + (s.x - px) ^ 2 - pr ^ 2

/-- Source line 138: discriminant `delta = b**2 - 4*a*c`. -/
noncomputable def elDelta (s : Ball) (px py pr : ℝ) : ℝ :=
  (elB s px py) ^ 2 - 4 * elA s * elC s px py pr

/-- Source line 142, first root `(-b + delta_root) / (2*a)`. -/
noncomputable def elSol1 (s : Ball) (px py pr : ℝ) : ℝ :=
  (-(elB s px py) + Real.sqrt (elDelta s px py pr)) / (2 * elA s)

/-- Source line 142, second root `(-b - delta_root) / (2*a)`. -/
noncomputable def elSol2 (s : Ball) (px py pr : ℝ) : ℝ :=
  (-(elB s px py) - Real.sqrt (elDelta s px py pr)) / (2 * elA s)

/-- Source line 145: `get_y = lambda x: y0 + vy * (x - x0) / vx`. -/
noncomputable def elGetY (s : Ball) (xq : ℝ) : ℝ :=
  s.y + s.vy * (xq - s.x) / s.vx

/-- First candidate intersection point (source lines 143-149). -/
noncomputable def elPt1 (s : Ball) (px py pr : ℝ) : ℝ × ℝ :=
  if 0.001 ≤ s.vx then (elSol1 s px py pr, elGetY s (elSol1 s px py pr))
  else (s.x, elSol1 s px py pr)

/-- Second candidate intersection point (source lines 143-149). -/
noncomputable def elPt2 (s : Ball) (px py pr : ℝ) : ℝ × ℝ :=
  if 0.001 ≤ s.vx then (elSol2 s px py pr, elGetY s (elSol2 s px py pr))
  else (s.x, elSol2 s px py pr)

/-- Contact point selection (source lines 151-153): the candidate nearer
the ball's current position. -/
noncomputable def elPoint (s : Ball) (px py pr : ℝ) : ℝ × ℝ :=
  let p1 := elPt1 s px py pr
  let p2 := elPt2 s px py pr
  let dist1 := (p1.1 - s.x) ^ 2 + (p1.2 - s.y) ^ 2
  let dist2 := (p2.1 - s.x) ^ 2 + (p2.2 - s.y) ^ 2
  if dist1 < dist2 then p1 else p2

/-- Embedding of `BallBasicModel._elastic_collision_with_round_player` (ball_model.py
lines 104-172).  `px, py, pvx, pvy, pr` are the other body's position,
velocity and radius.  A negative discriminant returns early with the state
unchanged (line 139-140).  The source divides by `n·n` (line 162) and by
the reflected magnitude `ref_vel` (lines 169-170) without guards. -/
noncomputable def elasticCollision (s : Ball) (px py pvx pvy pr : ℝ) :
    Option Ball :=
  if elDelta s px py pr < 0 then some s
  else
    let c := elPoint s px py pr
    let nx := c.1 - px
    let ny := c.2 - py
    let nn := nx * nx + ny * ny
    if nn = 0 then none else
    let sp := (s.vx * nx + s.vy * ny) / nn
    let rx := s.vx - 2 * sp * nx
    let ry := s.vy - 2 * sp * ny
    let vel := Real.sqrt (s.vx ^ 2 + s.vy ^ 2)
    let refvel := Real.sqrt (rx ^ 2 + ry ^ 2)
    if refvel = 0 then none
    else some { s with vx := pvx + rx * vel / refvel,
                       vy := pvy + ry * vel / refvel }

/-! Robot model: `RobotBasicModel` of robot_model.py. -/

/-- Mutable pose state of `RobotBasicModel`: EFCS position, pointing angle
and scalar velocity. -/
structure RobotState where
  x : ℝ
  y : ℝ
  heading : ℝ
  vel : ℝ

/-- Construction parameters of `RobotModel.__init__`. -/
structure RobotParams where
  dt : ℝ
  wheelRadius : ℝ
  axisLen : ℝ
  radius : ℝ
  rot : ℝ

/-- The default arguments of `RobotModel.__init__`: `dt=0.1,
robot_radius=0.1, wheel_radius=0.02, cord_system_rot=0, axis_len=0.05`. -/
noncomputable def defaultRobotParams : RobotParams :=
  { dt := 0.1, wheelRadius := 0.02, axisLen := 0.05, radius := 0.1, rot := 0 }

/-- Embedding of `clip_angle` (robot_model.py lines 114 and 156):
`a - 2*pi*sign(a)` when `|a| > pi`, otherwise `a` unchanged.
`Real.sign` agrees with `np.sign` (zero at zero). -/
noncomputable def clipAngle (a : ℝ) : ℝ :=
  if π < |a| then a - 2 * π * Real.sign a else a

/-- Embedding of `RobotBasicModel.step` (robot_model.py lines 100-116): differential
drive kinematics followed by the single-step angle wrap. -/
noncomputable def robotStep (p : RobotParams) (s : RobotState) (l r : ℝ) :
    RobotState :=
  { x := s.x + (p.wheelRadius * p.dt / 2) * (l + r) * Real.cos s.heading,
    y := s.y + (p.wheelRadius * p.dt / 2) * (l + r) * Real.sin s.heading,
    heading := clipAngle (s.heading + (p.wheelRadius * p.dt / p.axisLen) * (l - r)),
    vel := (p.wheelRadius / 2) * (l + r) }

/-- Embedding of `RobotModel._convert_EFCS_to_field_CS` (robot_model.py lines 48-60):
identity for rotation `0`, point reflection for rotation `pi`, and a
`ValueError` (modelled as `none`) otherwise. -/
noncomputable def toWCS (p : RobotParams) (x y : ℝ) : Option (ℝ × ℝ) :=
  if p.rot = 0 then some (x, y)
  else if p.rot = π then some (-x, -y)
  else none

/-- Python's float modulo `a % b` for the positive divisor used in
`get_diff_angle`: `a - b * floor(a / b)`. -/
noncomputable def pymod (a b : ℝ) : ℝ := a - b * (⌊a / b⌋ : ℤ)

/-- Embedding of `get_diff_angle` (robot_model.py line 155):
`abs((a - b + pi) % (2*pi) - pi)`. -/
noncomputable def getDiffAngle (a b : ℝ) : ℝ :=
  |pymod (a - b + π) (2 * π) - π|

/-- Embedding of `RobotBasicModel.step_with_restrictions` (robot_model.py lines
153-173).  The translational component is cancelled by subtracting the
average wheel speed from both wheels when the intended travel direction is
within the restricted sector. -/
noncomputable def stepWithRestrictions (p : RobotParams) (s : RobotState)
    (blocker restricted l r : ℝ) : RobotState :=
  let velSimplified := (l + r) / 2
  if velSimplified = 0 then robotStep p s l r
  else if 0 < velSimplified then
    if restricted < getDiffAngle blocker s.heading then robotStep p s l r
    else robotStep p s (l - velSimplified) (r - velSimplified)
  else
    let movePointing := clipAngle (s.heading + π)
    if restricted < getDiffAngle blocker movePointing then robotStep p s l r
    else robotStep p s (l - velSimplified) (r - velSimplified)

/-- Modelled from the spec: the `CollisionTypes` enumeration is imported
by robot_model.py from `GameEngine.collisions`, whose source is not part
of the two provided files.  Spec section 3 lists the variants of the
collision event (`NONE`, `WALL_VERTICAL`, `WALL_HORIZONTAL`,
`WALL_CORNER`, `PLAYER`). -/
inductive CollisionTypes where
  | NO
  | WALL_VERTICAL
  | WALL_HORIZONTAL
  | WALL_CORNER
  | PLAYER
deriving DecidableEq

/-- The read-only view of another body used by `collision_step`
(`get_position_components_wcs`). -/
structure Collidable where
  x : ℝ
  y : ℝ

/-- Embedding of `np.round` on a scalar: round half to even, as
used to snap the out-of-bounds coordinate in `collision_step`
(robot_model.py lines 136, 140, 146-147). -/
noncomputable def npRound (x : ℝ) : ℝ :=
  let n : ℤ := ⌊x⌋
  let f := x - n
  if f < 1 / 2 then n
  else if 1 / 2 < f then n + 1
  else if Even n then n else n + 1

/-- Embedding of `RobotBasicModel.collision_step` (robot_model.py lines 118-151).
Player collisions use the first list entry; wall collisions select the
blocker table entry from the pre-snap coordinates and then snap the
out-of-bounds coordinate(s) with `np.round`; an invocation with neither
collision raises `ValueError` (`none`).  An empty collision list in the
player branch would raise an `IndexError` (`none`).  `np.arctan2(y, x)` is
`Complex.arg ⟨x, y⟩`. -/
noncomputable def collisionStep (p : RobotParams) (s : RobotState)
    (wall players : CollisionTypes) (clist : List Collidable) (l r : ℝ) :
    Option RobotState :=
  if players = CollisionTypes.PLAYER then
    match clist with
    | [] => none
    | o :: _ =>
      match toWCS p s.x s.y with
      | none => none
      | some (sx, sy) =>
        let blocker := Complex.arg ⟨sx - o.x, sy - o.y⟩
        some (stepWithRestrictions p s blocker (π / 2) l r)
  else if wall ≠ CollisionTypes.NO then
    if wall = CollisionTypes.WALL_VERTICAL then
      let br := if 0 < s.x then ((0 : ℝ), π / 2) else (-π, π / 2)
      some (stepWithRestrictions p { s with x := npRound s.x } br.1 br.2 l r)
    else if wall = CollisionTypes.WALL_HORIZONTAL then
      let br := if 0 < s.y then (π / 2, π / 2) else (-π / 2, π / 2)
      some (stepWithRestrictions p { s with y := npRound s.y } br.1 br.2 l r)
    else
      let br :=
        if 0 < s.x ∧ 0 < s.y then (π / 4, 3 * π / 4)
        else if 0 < s.x ∧ s.y < 0 then (-π / 4, 3 * π / 4)
        else if s.x < 0 ∧ 0 < s.y then (3 * π / 4, 3 * π / 4)
        else (-3 * π / 4, 3 * π / 4)
      some (stepWithRestrictions p { s with x := npRound s.x, y := npRound s.y }
        br.1 br.2 l r)
  else none

/-- Iterated `RobotBasicModel.step` over a finite sequence of wheel-speed
pairs (the driver loop of the robot tests). -/
noncomputable def robotRun (p : RobotParams) (s : RobotState)
    (steps : List (ℝ × ℝ)) : RobotState :=
  steps.foldl (fun st pr => robotStep p st pr.1 pr.2) s

/-! Helper lemmas. -/

lemma sqrt_four : Real.sqrt 4 = 2 := by
  rw [show (4 : ℝ) = 2 ^ 2 by norm_num, Real.sqrt_sq (by norm_num)]

/-- C5: `wallCollision` negates and scales `vx` by the bounce coefficient
exactly for the vertical and corner orientations, negates and scales `vy`
exactly for the horizontal and corner orientations, and leaves the other
component unchanged; on velocity `(1, 2)` with bounce coefficient `0.8`
the results are `(-0.8, 2)`, `(1, -1.6)` and `(-0.8, -1.6)`. -/
theorem spec_wall_rebound :
    (∀ (p : BallParams) (s : Ball),
      ((wallCollision p s "vertical").vx = -(p.bounce * s.vx) ∧
       (wallCollision p s "vertical").vy = s.vy) ∧
      ((wallCollision p s "horizontal").vx = s.vx ∧
       (wallCollision p s "horizontal").vy = -(p.bounce * s.vy)) ∧
      ((wallCollision p s "corner").vx = -(p.bounce * s.vx) ∧
       (wallCollision p s "corner").vy = -(p.bounce * s.vy))) ∧
    (wallCollision defaultBallParams ⟨0, 0, 1, 2⟩ "vertical").vx = -0.8 ∧
    (wallCollision defaultBallParams ⟨0, 0, 1, 2⟩ "vertical").vy = 2 ∧
    (wallCollision defaultBallParams ⟨0, 0, 1, 2⟩ "horizontal").vx = 1 ∧
    (wallCollision defaultBallParams ⟨0, 0, 1, 2⟩ "horizontal").vy = -1.6 ∧
    (wallCollision defaultBallParams ⟨0, 0, 1, 2⟩ "corner").vx = -0.8 ∧
    (wallCollision defaultBallParams ⟨0, 0, 1, 2⟩ "corner").vy = -1.6 := by
  refine ⟨fun p s => ⟨⟨?_, ?_⟩, ⟨?_, ?_⟩, ?_, ?_⟩, ?_, ?_, ?_, ?_, ?_, ?_⟩ <;>
    simp [wallCollision, defaultBallParams] <;> ring_nf

/-- C8: a negative discriminant makes `elasticCollision` a defined no-op:
the ball state (position and velocity) is returned unchanged. -/
theorem spec_elastic_noop_on_miss (s : Ball) (px py pvx pvy pr : ℝ)
    (h : elDelta s px py pr < 0) :
    elasticCollision s px py pvx pvy pr = some s := by
  simp [elasticCollision, if_pos h]

/-- Witness for C8 at a concrete miss: a motionless-in-x ball at the
origin against a unit circle centred at `(2, 0)`. -/
theorem spec_elastic_noop_on_miss_witness :
    elDelta ⟨0, 0, 0, 1⟩ 2 0 1 < 0 ∧
    elasticCollision ⟨0, 0, 0, 1⟩ 2 0 0 0 1 = some ⟨0, 0, 0, 1⟩ := by
  have hvx : ¬ ((0.001 : ℝ) ≤ (0 : ℝ)) := by norm_num
  have h : elDelta ⟨0, 0, 0, 1⟩ 2 0 1 < 0 := by
    simp only [elDelta, elA, elB, elC]
    norm_num
  exact ⟨h, spec_elastic_noop_on_miss _ _ _ _ _ _ h⟩

/-- C10: none of the four ball collision resolvers moves the ball: the
position components of the result equal those of the input state. -/
theorem spec_resolvers_fix_position :
    (∀ (p : BallParams) (s : Ball) (o : String),
      (wallCollision p s o).x = s.x ∧ (wallCollision p s o).y = s.y) ∧
    (∀ (s : Ball) (pvx pvy : ℝ),
      (receiveCollision s pvx pvy).x = s.x ∧
      (receiveCollision s pvx pvy).y = s.y) ∧
    (∀ (p : BallParams) (s : Ball) (px py kv : ℝ) (s' : Ball),
      kickCollision p s px py kv = some s' → s'.x = s.x ∧ s'.y = s.y) ∧
    (∀ (s : Ball) (px py pvx pvy pr : ℝ) (s' : Ball),
      elasticCollision s px py pvx pvy pr = some s' →
        s'.x = s.x ∧ s'.y = s.y) := by
  refine ⟨fun p s o => ?_, fun s pvx pvy => ?_,
    fun p s px py kv s' h => ?_, fun s px py pvx pvy pr s' h => ?_⟩
  · unfold wallCollision
    split_ifs <;> simp
  · simp [receiveCollision]
  · simp only [kickCollision] at h
    split_ifs at h
    rw [Option.some.injEq] at h
    subst h
    exact ⟨rfl, rfl⟩
  · simp only [elasticCollision] at h
    split_ifs at h <;> rw [Option.some.injEq] at h <;> subst h <;>
      exact ⟨rfl, rfl⟩

/-- Witness for C10: a concrete kick (player at the origin, ball at
`(1, 2)`) evaluates to a state with velocity `(3, 0)` and the position
`(1, 2)` unchanged. -/
theorem spec_resolvers_fix_position_witness :
    kickCollision defaultBallParams ⟨1, 2, 0, 0⟩ 0 2 5 = some ⟨1, 2, 3, 0⟩ ∧
    (Ball.mk 1 2 3 0).x = (Ball.mk 1 2 0 0).x ∧
    (Ball.mk 1 2 3 0).y = (Ball.mk 1 2 0 0).y := by
  have heval : kickCollision defaultBallParams ⟨1, 2, 0, 0⟩ 0 2 5 =
      some ⟨1, 2, 3, 0⟩ := by
    simp only [kickCollision, defaultBallParams]
    norm_num [Real.sqrt_one]
  exact ⟨heval, spec_resolvers_fix_position.2.2.1 _ _ _ _ _ _ heval⟩

/-- C6: `kickCollision` sets the velocity to the unit vector pointing from
the other body to the ball, scaled by `min(requestedSpeed, maxVelocity)`,
discarding the prior velocity; the spec example (player at `(-1,0)`, ball
at the origin, max velocity 3, requested 5) yields exactly `(3, 0)`. -/
theorem spec_kick_exact :
    (∀ (p : BallParams) (s : Ball) (px py req : ℝ), ¬(s.x = px ∧ s.y = py) →
      ∃ ux uy,
        ux ^ 2 + uy ^ 2 = 1 ∧
        ux * (s.y - py) = uy * (s.x - px) ∧
        0 ≤ ux * (s.x - px) + uy * (s.y - py) ∧
        kickCollision p s px py req =
          some { s with vx := min req p.maxVel * ux,
                        vy := min req p.maxVel * uy } ∧
        (0 ≤ min req p.maxVel →
          Real.sqrt ((min req p.maxVel * ux) ^ 2 +
            (min req p.maxVel * uy) ^ 2) = min req p.maxVel)) ∧
    kickCollision defaultBallParams ⟨0, 0, 0, 0⟩ (-1) 0 5 =
      some ⟨0, 0, 3, 0⟩ := by
  constructor
  · intro p s px py req hd
    have hne : s.x - px ≠ 0 ∨ s.y - py ≠ 0 := by
      rcases not_and_or.mp hd with h | h
      · exact Or.inl (sub_ne_zero.mpr h)
      · exact Or.inr (sub_ne_zero.mpr h)
    have hpos : 0 < (s.x - px) ^ 2 + (s.y - py) ^ 2 := by
      rcases hne with h | h
      · have : 0 < (s.x - px) ^ 2 := by positivity
        nlinarith [sq_nonneg (s.y - py)]
      · have : 0 < (s.y - py) ^ 2 := by positivity
        nlinarith [sq_nonneg (s.x - px)]
    set d := Real.sqrt ((s.x - px) ^ 2 + (s.y - py) ^ 2) with hdd
    have hdpos : 0 < d := Real.sqrt_pos.mpr hpos
    have hdne : d ≠ 0 := ne_of_gt hdpos
    have hunit : ((s.x - px) / d) ^ 2 + ((s.y - py) / d) ^ 2 = 1 := by
      field_simp
      rw [hdd, Real.sq_sqrt hpos.le]
    refine ⟨(s.x - px) / d, (s.y - py) / d, hunit, by ring, ?_, ?_, ?_⟩
    · have heq : (s.x - px) / d * (s.x - px) + (s.y - py) / d * (s.y - py) =
          ((s.x - px) ^ 2 + (s.y - py) ^ 2) / d := by ring
      rw [heq]
      positivity
    · simp only [kickCollision]
      rw [if_neg hdne, mul_div_assoc, mul_div_assoc]
    · intro hk
      have heq : (min req p.maxVel * ((s.x - px) / d)) ^ 2 +
          (min req p.maxVel * ((s.y - py) / d)) ^ 2 =
          (min req p.maxVel) ^ 2 *
            (((s.x - px) / d) ^ 2 + ((s.y - py) / d) ^ 2) := by ring
      rw [heq, hunit, mul_one, Real.sqrt_sq hk]
  · simp only [kickCollision, defaultBallParams]
    norm_num [Real.sqrt_one]

/-- Witness for C6 at the spec's example input. -/
theorem spec_kick_exact_witness :
    ¬((0 : ℝ) = -1 ∧ (0 : ℝ) = 0) ∧
    (∃ ux uy,
      ux ^ 2 + uy ^ 2 = 1 ∧
      ux * ((0 : ℝ) - 0) = uy * ((0 : ℝ) - (-1)) ∧
      0 ≤ ux * ((0 : ℝ) - (-1)) + uy * ((0 : ℝ) - 0) ∧
      kickCollision defaultBallParams ⟨0, 0, 0, 0⟩ (-1) 0 5 =
        some ⟨0, 0, min 5 3 * ux, min 5 3 * uy⟩ ∧
      (0 ≤ min (5 : ℝ) 3 →
        Real.sqrt ((min (5 : ℝ) 3 * ux) ^ 2 + (min (5 : ℝ) 3 * uy) ^ 2) =
          min 5 3)) :=
  ⟨by norm_num,
   spec_kick_exact.1 defaultBallParams ⟨0, 0, 0, 0⟩ (-1) 0 5 (by norm_num)⟩

/-- Evaluation of `ballStep` at the default construction parameters: the
acceleration-threshold test `0.01 < |acc|` becomes `0.1 < vel`, and in the
damped branch both velocity components are scaled by `0.99`. -/
lemma ballStep_default (x y vx vy : ℝ) :
    ballStep defaultBallParams ⟨x, y, vx, vy⟩ =
      if 0.1 < Real.sqrt (vx ^ 2 + vy ^ 2) then
        some ⟨x + vx * 0.1 - 0.0005 * vx, y + vy * 0.1 - 0.0005 * vy,
          0.99 * vx, 0.99 * vy⟩
      else some ⟨x + vx * 0.1, y + vy * 0.1, vx, vy⟩ := by
  have hvnn : 0 ≤ Real.sqrt (vx ^ 2 + vy ^ 2) := Real.sqrt_nonneg _
  simp only [ballStep, defaultBallParams]
  rw [if_neg (by norm_num : ¬(0.1 : ℝ) = 0)]
  have hcond : (0.01 < |(-(Real.sqrt (vx ^ 2 + vy ^ 2)) * 0.01 / 0.1)|) ↔
      (0.1 < Real.sqrt (vx ^ 2 + vy ^ 2)) := by
    have habs : |(-(Real.sqrt (vx ^ 2 + vy ^ 2)) * 0.01 / 0.1)| =
        0.1 * Real.sqrt (vx ^ 2 + vy ^ 2) := by
      rw [show -(Real.sqrt (vx ^ 2 + vy ^ 2)) * 0.01 / 0.1 =
          -(0.1 * Real.sqrt (vx ^ 2 + vy ^ 2)) by ring]
      rw [abs_neg, abs_of_nonneg (by positivity)]
    rw [habs]
    constructor <;> intro h <;> linarith
  simp only [hcond]
  split_ifs with h1 h2
  · rw [h2] at h1
    norm_num at h1
  · simp only [Option.some.injEq, Ball.mk.injEq]
    refine ⟨?_, ?_, ?_, ?_⟩ <;> field_simp <;> ring
  · rfl

/-- C7: with default parameters and no collisions, one `ballStep` scales
both velocity components by a common factor `c ∈ (0, 1]`: `c = 0.99` above
the acceleration cutoff and `c = 1` at or below it; the speed never
increases and the direction is never reversed. -/
theorem spec_friction_monotone (x y vx vy : ℝ) (h : ¬(vx = 0 ∧ vy = 0)) :
    ∃ s' c, ballStep defaultBallParams ⟨x, y, vx, vy⟩ = some s' ∧
      0 < c ∧ c ≤ 1 ∧ s'.vx = c * vx ∧ s'.vy = c * vy ∧
      Real.sqrt (s'.vx ^ 2 + s'.vy ^ 2) ≤ Real.sqrt (vx ^ 2 + vy ^ 2) ∧
      (0.01 < 0.1 * Real.sqrt (vx ^ 2 + vy ^ 2) → c = 0.99) ∧
      (0.1 * Real.sqrt (vx ^ 2 + vy ^ 2) ≤ 0.01 → c = 1) := by
  have hvnn : 0 ≤ Real.sqrt (vx ^ 2 + vy ^ 2) := Real.sqrt_nonneg _
  rw [ballStep_default]
  by_cases hc : 0.1 < Real.sqrt (vx ^ 2 + vy ^ 2)
  · rw [if_pos hc]
    refine ⟨_, 0.99, rfl, by norm_num, by norm_num, rfl, rfl, ?_, ?_, ?_⟩
    · have heq : (0.99 * vx) ^ 2 + (0.99 * vy) ^ 2 =
          0.99 ^ 2 * (vx ^ 2 + vy ^ 2) := by ring
      rw [heq, Real.sqrt_mul (by norm_num : (0 : ℝ) ≤ 0.99 ^ 2),
        Real.sqrt_sq (by norm_num : (0 : ℝ) ≤ 0.99)]
      nlinarith
    · intro _; rfl
    · intro hle; linarith
  · rw [if_neg hc]
    push_neg at hc
    refine ⟨_, 1, rfl, by norm_num, le_refl 1, (one_mul vx).symm,
      (one_mul vy).symm, le_refl _, ?_, fun _ => rfl⟩
    intro hgt; linarith

/-! Geometry of the elastic-collision quadratic. -/

lemma elA_ge_one (s : Ball) : 1 ≤ elA s := by
  unfold elA
  split_ifs
  · nlinarith [sq_nonneg (elK s)]
  · exact le_refl 1

lemma elA_ne_zero (s : Ball) : elA s ≠ 0 :=
  (lt_of_lt_of_le zero_lt_one (elA_ge_one s)).ne'

lemma elSol1_root (s : Ball) (px py pr : ℝ) (h : 0 ≤ elDelta s px py pr) :
    elA s * elSol1 s px py pr ^ 2 + elB s px py * elSol1 s px py pr +
      elC s px py pr = 0 := by
  have ha : elA s ≠ 0 := elA_ne_zero s
  have hsq : Real.sqrt (elDelta s px py pr) ^ 2 =
      elB s px py ^ 2 - 4 * elA s * elC s px py pr := by
    rw [Real.sq_sqrt h, elDelta]
  unfold elSol1
  field_simp
  linear_combination (2 * elA s ^ 2) * hsq

lemma elSol2_root (s : Ball) (px py pr : ℝ) (h : 0 ≤ elDelta s px py pr) :
    elA s * elSol2 s px py pr ^ 2 + elB s px py * elSol2 s px py pr +
      elC s px py pr = 0 := by
  have ha : elA s ≠ 0 := elA_ne_zero s
  have hsq : Real.sqrt (elDelta s px py pr) ^ 2 =
      elB s px py ^ 2 - 4 * elA s * elC s px py pr := by
    rw [Real.sq_sqrt h, elDelta]
  unfold elSol2
  field_simp
  linear_combination (2 * elA s ^ 2) * hsq

/-- When the discriminant is nonnegative, the first candidate contact
point lies exactly on the other body's circle. -/
lemma elPt1_on_circle (s : Ball) (px py pr : ℝ)
    (h : 0 ≤ elDelta s px py pr) :
    ((elPt1 s px py pr).1 - px) ^ 2 + ((elPt1 s px py pr).2 - py) ^ 2 =
      pr ^ 2 := by
  have hroot := elSol1_root s px py pr h
  unfold elPt1
  split_ifs with hvx
  · simp only [elA, elB, elC, elM, if_pos hvx] at hroot
    have hy : elGetY s (elSol1 s px py pr) =
        s.y + elK s * (elSol1 s px py pr - s.x) := by
      unfold elGetY elK
      rw [div_mul_eq_mul_div]
    dsimp only
    rw [hy]
    linear_combination hroot
  · simp only [elA, elB, elC, if_neg hvx] at hroot
    dsimp only
    linear_combination hroot

/-- When the discriminant is nonnegative, the second candidate contact
point lies exactly on the other body's circle. -/
lemma elPt2_on_circle (s : Ball) (px py pr : ℝ)
    (h : 0 ≤ elDelta s px py pr) :
    ((elPt2 s px py pr).1 - px) ^ 2 + ((elPt2 s px py pr).2 - py) ^ 2 =
      pr ^ 2 := by
  have hroot := elSol2_root s px py pr h
  unfold elPt2
  split_ifs with hvx
  · simp only [elA, elB, elC, elM, if_pos hvx] at hroot
    have hy : elGetY s (elSol2 s px py pr) =
        s.y + elK s * (elSol2 s px py pr - s.x) := by
      unfold elGetY elK
      rw [div_mul_eq_mul_div]
    dsimp only
    rw [hy]
    linear_combination hroot
  · simp only [elA, elB, elC, if_neg hvx] at hroot
    dsimp only
    linear_combination hroot

/-- The selected contact point lies on the other body's circle. -/
lemma elPoint_on_circle (s : Ball) (px py pr : ℝ)
    (h : 0 ≤ elDelta s px py pr) :
    ((elPoint s px py pr).1 - px) ^ 2 + ((elPoint s px py pr).2 - py) ^ 2 =
      pr ^ 2 := by
  unfold elPoint
  dsimp only
  split_ifs
  · exact elPt1_on_circle s px py pr h
  · exact elPt2_on_circle s px py pr h

/-- Reflecting a vector across a nonzero normal preserves its squared
norm (the reflection formula of ball_model.py lines 162-164). -/
lemma reflect_norm (mx my nx ny : ℝ) (h : nx * nx + ny * ny ≠ 0) :
    (mx - 2 * ((mx * nx + my * ny) / (nx * nx + ny * ny)) * nx) ^ 2 +
      (my - 2 * ((mx * nx + my * ny) / (nx * nx + ny * ny)) * ny) ^ 2 =
      mx ^ 2 + my ^ 2 := by
  field_simp
  ring

lemma sq_sum_pos_of_ne (a b : ℝ) (h : a ≠ 0 ∨ b ≠ 0) : 0 < a ^ 2 + b ^ 2 := by
  rcases h with h | h
  · have : 0 < a ^ 2 := by positivity
    nlinarith [sq_nonneg b]
  · have : 0 < b ^ 2 := by positivity
    nlinarith [sq_nonneg a]

/-- With a nonzero ball velocity and nonzero body radius, every division
inside `elasticCollision` is defined: the contact normal has squared norm
`pr²` and the reflected vector keeps the incoming speed. -/
lemma elastic_isSome (s : Ball) (px py pvx pvy pr : ℝ)
    (hv : ¬(s.vx = 0 ∧ s.vy = 0)) (hr : pr ≠ 0) :
    (elasticCollision s px py pvx pvy pr).isSome = true := by
  simp only [elasticCollision]
  split_ifs with hd hnn hrv
  · rfl
  · exfalso
    have h0 : 0 ≤ elDelta s px py pr := not_lt.mp hd
    have hc := elPoint_on_circle s px py pr h0
    have hnx : ((elPoint s px py pr).1 - px) * ((elPoint s px py pr).1 - px) +
        ((elPoint s px py pr).2 - py) * ((elPoint s px py pr).2 - py) =
        pr ^ 2 := by linear_combination hc
    rw [hnx] at hnn
    exact hr (pow_eq_zero_iff (n := 2) (by norm_num) |>.mp hnn)
  · exfalso
    have h0 : 0 ≤ elDelta s px py pr := not_lt.mp hd
    have hrefl := reflect_norm s.vx s.vy ((elPoint s px py pr).1 - px)
      ((elPoint s px py pr).2 - py) hnn
    rw [hrefl] at hrv
    have hle : s.vx ^ 2 + s.vy ^ 2 ≤ 0 := Real.sqrt_eq_zero'.mp hrv
    have hvx : s.vx = 0 := by nlinarith [sq_nonneg s.vx, sq_nonneg s.vy]
    have hvy : s.vy = 0 := by nlinarith [sq_nonneg s.vx, sq_nonneg s.vy]
    exact hv ⟨hvx, hvy⟩
  · rfl

/-- C2 (amended): the `0.01` acceleration cutoff guards `step`'s division
by speed whenever `mass ≠ 0`; `kick`'s division by the centre distance is
defined whenever the centres are distinct; `elasticCollision`'s divisions
by `n·n` and by the reflected magnitude are defined whenever the ball
velocity is nonzero and the body radius is nonzero. -/
theorem spec_division_guards_amended :
    (∀ (p : BallParams) (s : Ball), p.mass ≠ 0 →
      (ballStep p s).isSome = true) ∧
    (∀ (p : BallParams) (s : Ball) (px py kv : ℝ),
      ¬(s.x = px ∧ s.y = py) →
      (kickCollision p s px py kv).isSome = true) ∧
    (∀ (s : Ball) (px py pvx pvy pr : ℝ),
      ¬(s.vx = 0 ∧ s.vy = 0) → pr ≠ 0 →
      (elasticCollision s px py pvx pvy pr).isSome = true) := by
  refine ⟨fun p s hm => ?_, fun p s px py kv hd => ?_, elastic_isSome⟩
  · simp only [ballStep]
    rw [if_neg hm]
    split_ifs with hacc hvel
    · exfalso
      rw [hvel] at hacc
      norm_num at hacc
    · rfl
    · rfl
  · have hne : s.x - px ≠ 0 ∨ s.y - py ≠ 0 := by
      rcases not_and_or.mp hd with h | h
      · exact Or.inl (sub_ne_zero.mpr h)
      · exact Or.inr (sub_ne_zero.mpr h)
    have hdne : Real.sqrt ((s.x - px) ^ 2 + (s.y - py) ^ 2) ≠ 0 :=
      (Real.sqrt_pos.mpr (sq_sum_pos_of_ne _ _ hne)).ne'
    simp only [kickCollision]
    rw [if_neg hdne]
    rfl

/-- Witness for the amended C2, at the default mass. -/
theorem spec_division_guards_amended_witness :
    defaultBallParams.mass ≠ 0 ∧
    (ballStep defaultBallParams ⟨0, 0, 0, 0⟩).isSome = true :=
  ⟨by norm_num [defaultBallParams],
   spec_division_guards_amended.1 defaultBallParams ⟨0, 0, 0, 0⟩
     (by norm_num [defaultBallParams])⟩

/-- Counterexample to C2 as stated: the internal divisions are not all
guarded.  `kick` with coincident centres divides by a zero distance;
`elasticCollision` with a zero ball velocity divides by a zero reflected
magnitude; `elasticCollision` with a zero body radius divides by a zero
`n·n`; `step` with a zero mass divides by zero before any threshold test.
Each run is modelled as `none` (a `ZeroDivisionError` in the source). -/
theorem ball_division_unguarded_cex :
    kickCollision defaultBallParams ⟨0, 0, 0, 0⟩ 0 0 5 = none ∧
    elasticCollision ⟨0, 0, 0, 0⟩ 0 0 0 0 1 = none ∧
    elasticCollision ⟨0, 0, 0, 1⟩ 0 0 0 0 0 = none ∧
    ballStep { defaultBallParams with mass := 0 } ⟨0, 0, 1, 0⟩ = none := by
  refine ⟨?_, ?_, ?_, ?_⟩
  · simp only [kickCollision]
    norm_num [Real.sqrt_zero]
  · have hvx : ¬ ((0.001 : ℝ) ≤ (Ball.mk 0 0 0 0).vx) := by norm_num
    have hB : elB ⟨0, 0, 0, 0⟩ 0 0 = 0 := by simp [elB, hvx]
    have hC : elC ⟨0, 0, 0, 0⟩ 0 0 1 = -1 := by simp [elC, hvx]
    have hA : elA ⟨0, 0, 0, 0⟩ = 1 := by simp [elA, hvx]
    have hD : elDelta ⟨0, 0, 0, 0⟩ 0 0 1 = 4 := by
      simp [elDelta, hA, hB, hC]
    have hs1 : elSol1 ⟨0, 0, 0, 0⟩ 0 0 1 = 1 := by
      rw [elSol1, hD, sqrt_four, hA, hB]
      norm_num
    have hs2 : elSol2 ⟨0, 0, 0, 0⟩ 0 0 1 = -1 := by
      rw [elSol2, hD, sqrt_four, hA, hB]
      norm_num
    have hp1 : elPt1 ⟨0, 0, 0, 0⟩ 0 0 1 = (0, 1) := by
      rw [elPt1, if_neg hvx, hs1]
    have hp2 : elPt2 ⟨0, 0, 0, 0⟩ 0 0 1 = (0, -1) := by
      rw [elPt2, if_neg hvx, hs2]
    have hpt : elPoint ⟨0, 0, 0, 0⟩ 0 0 1 = (0, -1) := by
      rw [elPoint]
      simp only [hp1, hp2]
      norm_num
    simp only [elasticCollision, hD, hpt]
    norm_num [Real.sqrt_zero]
  · have hvx : ¬ ((0.001 : ℝ) ≤ (Ball.mk 0 0 0 1).vx) := by norm_num
    have hB : elB ⟨0, 0, 0, 1⟩ 0 0 = 0 := by simp [elB, hvx]
    have hC : elC ⟨0, 0, 0, 1⟩ 0 0 0 = 0 := by simp [elC, hvx]
    have hA : elA ⟨0, 0, 0, 1⟩ = 1 := by simp [elA, hvx]
    have hD : elDelta ⟨0, 0, 0, 1⟩ 0 0 0 = 0 := by
      simp [elDelta, hA, hB, hC]
    have hs1 : elSol1 ⟨0, 0, 0, 1⟩ 0 0 0 = 0 := by
      rw [elSol1, hD, Real.sqrt_zero, hA, hB]
      norm_num
    have hs2 : elSol2 ⟨0, 0, 0, 1⟩ 0 0 0 = 0 := by
      rw [elSol2, hD, Real.sqrt_zero, hA, hB]
      norm_num
    have hp1 : elPt1 ⟨0, 0, 0, 1⟩ 0 0 0 = (0, 0) := by
      rw [elPt1, if_neg hvx, hs1]
    have hp2 : elPt2 ⟨0, 0, 0, 1⟩ 0 0 0 = (0, 0) := by
      rw [elPt2, if_neg hvx, hs2]
    have hpt : elPoint ⟨0, 0, 0, 1⟩ 0 0 0 = (0, 0) := by
      rw [elPoint]
      simp only [hp1, hp2]
      norm_num
    simp only [elasticCollision, hD, hpt]
    norm_num
  · simp [ballStep, defaultBallParams]

/-- C1 (code divergence): the elastic-collision branch test is the signed
comparison `vx >= 0.001`, not `|vx| >= 0.001`.  For the ball velocity
`(-5, 1)` we have `|vx| ≥ 0.001`, yet the code selects the near-vertical
parameterization (`a = 1`, the slope coefficient `1 + k²` it should use is
`≠ 1`), and consequently reports a miss (no-op) for a ball at the origin
moving straight towards the unit circle centred at `(-3, 0)`. -/
theorem ball_elastic_branch_sign_bug :
    (0.001 : ℝ) ≤ |(Ball.mk 0 0 (-5) 1).vx| ∧
    elA ⟨0, 0, -5, 1⟩ = 1 ∧
    1 + (elK ⟨0, 0, -5, 1⟩) ^ 2 ≠ 1 ∧
    elasticCollision ⟨0, 0, -5, 1⟩ (-3) 0 0 0 1 = some ⟨0, 0, -5, 1⟩ := by
  have hvx : ¬ ((0.001 : ℝ) ≤ (Ball.mk 0 0 (-5) 1).vx) := by norm_num
  refine ⟨by norm_num, by simp [elA, hvx], ?_, ?_⟩
  · simp only [elK]
    norm_num
  · have hD : elDelta ⟨0, 0, -5, 1⟩ (-3) 0 1 < 0 := by
      simp [elDelta, elA, elB, elC, hvx]
    simp [elasticCollision, if_pos hD]

/-- Single-step preservation: if the heading lies in `[-π, π]` and the
angular increment is at most `2π` in magnitude, `clip_angle` returns a
value in `[-π, π]`. -/
lemma clipAngle_mem (h d : ℝ) (hh : h ∈ Set.Icc (-π) π) (hd : |d| ≤ 2 * π) :
    clipAngle (h + d) ∈ Set.Icc (-π) π := by
  obtain ⟨hl, hr⟩ := hh
  have hd1 : -(2 * π) ≤ d := neg_le_of_abs_le hd
  have hd2 : d ≤ 2 * π := le_of_abs_le hd
  have hpi : 0 < π := Real.pi_pos
  unfold clipAngle
  split_ifs with habs
  · rcases abs_cases (h + d) with ⟨heq, hge⟩ | ⟨heq, hlt⟩
    · rw [heq] at habs
      have hsign : Real.sign (h + d) = 1 := Real.sign_of_pos (by linarith)
      rw [hsign]
      constructor <;> [linarith; linarith]
    · rw [heq] at habs
      have hsign : Real.sign (h + d) = -1 := Real.sign_of_neg (by linarith)
      rw [hsign]
      constructor <;> [linarith; linarith]
  · exact Set.mem_Icc.mpr (abs_le.mp (not_lt.mp habs))

/-- C3 (amended): provided every step's angular increment
`wheelRadius·dt/axisLen·(l−r)` is at most `2π` in magnitude, the heading
after every step of a run stays in the closed interval `[-π, π]` (the
endpoint `-π` is attainable, so the half-open `(-π, π]` of the claim does
not hold; unbounded increments escape the interval entirely). -/
theorem spec_heading_wrap_amended (p : RobotParams) (s : RobotState)
    (steps : List (ℝ × ℝ)) (h0 : s.heading ∈ Set.Icc (-π) π)
    (hb : ∀ pr ∈ steps,
      |p.wheelRadius * p.dt / p.axisLen * (pr.1 - pr.2)| ≤ 2 * π) :
    (robotRun p s steps).heading ∈ Set.Icc (-π) π := by
  induction steps generalizing s with
  | nil => simpa [robotRun] using h0
  | cons hd tl ih =>
    have hstep : (robotStep p s hd.1 hd.2).heading ∈ Set.Icc (-π) π := by
      have := clipAngle_mem s.heading
        (p.wheelRadius * p.dt / p.axisLen * (hd.1 - hd.2)) h0
        (hb hd (List.mem_cons_self _ _))
      simpa [robotStep] using this
    have hrun : robotRun p s (hd :: tl) =
        robotRun p (robotStep p s hd.1 hd.2) tl := by
      simp [robotRun]
    rw [hrun]
    exact ih _ hstep (fun pr hpr => hb pr (List.mem_cons_of_mem _ hpr))

/-- Witness for the amended C3: one step with equal wheel speeds from
heading `0` stays in `[-π, π]`. -/
theorem spec_heading_wrap_amended_witness :
    ((0 : ℝ) ∈ Set.Icc (-π) π) ∧
    (∀ pr ∈ [((1 : ℝ), (1 : ℝ))],
      |defaultRobotParams.wheelRadius * defaultRobotParams.dt /
        defaultRobotParams.axisLen * (pr.1 - pr.2)| ≤ 2 * π) ∧
    (robotRun defaultRobotParams ⟨0, 0, 0, 0⟩ [(1, 1)]).heading ∈
      Set.Icc (-π) π := by
  have hpi : 0 < π := Real.pi_pos
  have h0 : (RobotState.mk 0 0 0 0).heading ∈ Set.Icc (-π) π :=
    Set.mem_Icc.mpr ⟨by simp; linarith, by simp; linarith⟩
  have hb : ∀ pr ∈ [((1 : ℝ), (1 : ℝ))],
      |defaultRobotParams.wheelRadius * defaultRobotParams.dt /
        defaultRobotParams.axisLen * (pr.1 - pr.2)| ≤ 2 * π := by
    intro pr hpr
    rw [List.mem_singleton] at hpr
    subst hpr
    norm_num
    linarith
  exact ⟨h0, hb, spec_heading_wrap_amended defaultRobotParams ⟨0, 0, 0, 0⟩
    [(1, 1)] h0 hb⟩

/-- Counterexample to C3 as stated: a single step with a large wheel-speed
differential drives the heading from `0` to `8π ∉ (-π, π]` (the wrap
subtracts only one `2π`), and a differential of exactly `-π/0.04` lands on
`-π`, which is kept and is outside the half-open interval `(-π, π]`. -/
theorem robot_heading_wrap_cex :
    (robotStep defaultRobotParams ⟨0, 0, 0, 0⟩ (250 * π) 0).heading =
      8 * π ∧
    ¬ (8 * π ∈ Set.Ioc (-π) π) ∧
    (robotStep defaultRobotParams ⟨0, 0, 0, 0⟩ 0 (25 * π)).heading = -π ∧
    ¬ (-π ∈ Set.Ioc (-π) π) := by
  have hpi : 0 < π := Real.pi_pos
  refine ⟨?_, ?_, ?_, ?_⟩
  · simp only [robotStep, defaultRobotParams]
    rw [show (0 : ℝ) + 0.02 * 0.1 / 0.05 * (250 * π - 0) = 10 * π by ring]
    unfold clipAngle
    rw [if_pos, Real.sign_of_pos (by positivity)]
    · ring
    · rw [abs_of_pos (by positivity)]
      nlinarith
  · intro hmem
    exact absurd hmem.2 (by nlinarith)
  · simp only [robotStep, defaultRobotParams]
    rw [show (0 : ℝ) + 0.02 * 0.1 / 0.05 * (0 - 25 * π) = -π by ring]
    unfold clipAngle
    rw [if_neg]
    rw [abs_neg, abs_of_pos hpi]
    exact lt_irrefl π
  · intro hmem
    exact absurd hmem.1 (lt_irrefl (-π))

/-- Subtracting the average wheel speed from both wheels zeroes the
translation while leaving the heading update unchanged. -/
lemma robotStep_cancel (p : RobotParams) (s : RobotState) (l r : ℝ) :
    (robotStep p s (l - (l + r) / 2) (r - (l + r) / 2)).x = s.x ∧
    (robotStep p s (l - (l + r) / 2) (r - (l + r) / 2)).y = s.y ∧
    (robotStep p s (l - (l + r) / 2) (r - (l + r) / 2)).heading =
      (robotStep p s l r).heading := by
  refine ⟨?_, ?_, ?_⟩
  · simp only [robotStep]
    rw [show l - (l + r) / 2 + (r - (l + r) / 2) = 0 by ring]
    ring
  · simp only [robotStep]
    rw [show l - (l + r) / 2 + (r - (l + r) / 2) = 0 by ring]
    ring
  · simp only [robotStep]
    congr 1
    ring

/-- C9: `step_with_restrictions` performs the unrestricted step when the
average wheel speed is zero or the intended travel heading is outside the
restricted sector; inside the sector it keeps the position exactly and
changes the heading exactly as the unrestricted step would. -/
theorem spec_restricted_step (p : RobotParams) (s : RobotState)
    (blocker restricted l r : ℝ) :
    ((l + r) / 2 = 0 →
      stepWithRestrictions p s blocker restricted l r = robotStep p s l r) ∧
    ((l + r) / 2 ≠ 0 →
      (getDiffAngle blocker (if 0 < (l + r) / 2 then s.heading
          else clipAngle (s.heading + π)) ≤ restricted →
        (stepWithRestrictions p s blocker restricted l r).x = s.x ∧
        (stepWithRestrictions p s blocker restricted l r).y = s.y ∧
        (stepWithRestrictions p s blocker restricted l r).heading =
          (robotStep p s l r).heading) ∧
      (restricted < getDiffAngle blocker (if 0 < (l + r) / 2 then s.heading
          else clipAngle (s.heading + π)) →
        stepWithRestrictions p s blocker restricted l r =
          robotStep p s l r)) := by
  constructor
  · intro hv
    simp only [stepWithRestrictions]
    rw [if_pos hv]
  · intro hv
    constructor
    · intro hin
      simp only [stepWithRestrictions]
      rw [if_neg hv]
      by_cases hpos : 0 < (l + r) / 2
      · rw [if_pos hpos] at hin
        rw [if_pos hpos, if_neg (not_lt.mpr hin)]
        exact robotStep_cancel p s l r
      · rw [if_neg hpos] at hin
        rw [if_neg hpos, if_neg (not_lt.mpr hin)]
        exact robotStep_cancel p s l r
    · intro hout
      simp only [stepWithRestrictions]
      rw [if_neg hv]
      by_cases hpos : 0 < (l + r) / 2
      · rw [if_pos hpos] at hout
        rw [if_pos hpos, if_pos hout]
      · rw [if_neg hpos] at hout
        rw [if_neg hpos, if_pos hout]

/-- Witness for C9: wheel speeds `(1, 1)` from heading `0` against a
blocker at angle `0` with restricted half-angle `2`: inside the sector,
so the position is frozen and the heading matches the unrestricted step. -/
theorem spec_restricted_step_witness :
    ((1 : ℝ) + 1) / 2 ≠ 0 ∧
    getDiffAngle 0 (if 0 < ((1 : ℝ) + 1) / 2 then
      (RobotState.mk 0 0 0 0).heading
      else clipAngle ((RobotState.mk 0 0 0 0).heading + π)) ≤ 2 ∧
    ((stepWithRestrictions defaultRobotParams ⟨0, 0, 0, 0⟩ 0 2 1 1).x =
        (RobotState.mk 0 0 0 0).x ∧
      (stepWithRestrictions defaultRobotParams ⟨0, 0, 0, 0⟩ 0 2 1 1).y =
        (RobotState.mk 0 0 0 0).y ∧
      (stepWithRestrictions defaultRobotParams ⟨0, 0, 0, 0⟩ 0 2 1 1).heading =
        (robotStep defaultRobotParams ⟨0, 0, 0, 0⟩ 1 1).heading) := by
  have hv : ((1 : ℝ) + 1) / 2 ≠ 0 := by norm_num
  have hdiff : getDiffAngle 0 (if 0 < ((1 : ℝ) + 1) / 2 then
      (RobotState.mk 0 0 0 0).heading
      else clipAngle ((RobotState.mk 0 0 0 0).heading + π)) ≤ 2 := by
    rw [if_pos (by norm_num : (0 : ℝ) < ((1 : ℝ) + 1) / 2)]
    show getDiffAngle 0 0 ≤ 2
    unfold getDiffAngle pymod
    rw [show (0 : ℝ) - 0 + π = π by ring]
    have hfrac : π / (2 * π) = 1 / 2 := by
      field_simp [Real.pi_ne_zero]
      ring
    rw [hfrac]
    have hfloor : ⌊(1 / 2 : ℝ)⌋ = 0 := by norm_num
    rw [hfloor]
    norm_num
  exact ⟨hv, hdiff,
    ((spec_restricted_step defaultRobotParams ⟨0, 0, 0, 0⟩ 0 2 1 1).2 hv).1
      hdiff⟩

lemma clipAngle_zero : clipAngle 0 = 0 := by
  unfold clipAngle
  rw [if_neg]
  rw [abs_zero]
  exact not_lt.mpr Real.pi_nonneg

/-- C4 (amended): for a wall collision, `collision_step` snaps the
out-of-bounds coordinate(s) to `np.round` (round half to even) of the
prior coordinate — not to the nearest boundary in the direction of the
field edge — and only then performs the restricted motion step, with the
blocker table selected from the pre-snap coordinates. -/
theorem spec_wall_snap_amended (p : RobotParams) (s : RobotState)
    (clist : List Collidable) (l r : ℝ) :
    collisionStep p s CollisionTypes.WALL_VERTICAL CollisionTypes.NO
        clist l r =
      some (stepWithRestrictions p { s with x := npRound s.x }
        (if 0 < s.x then (0 : ℝ) else -π) (π / 2) l r) ∧
    collisionStep p s CollisionTypes.WALL_HORIZONTAL CollisionTypes.NO
        clist l r =
      some (stepWithRestrictions p { s with y := npRound s.y }
        (if 0 < s.y then π / 2 else -π / 2) (π / 2) l r) ∧
    collisionStep p s CollisionTypes.WALL_CORNER CollisionTypes.NO
        clist l r =
      some (stepWithRestrictions p
        { s with x := npRound s.x, y := npRound s.y }
        (if 0 < s.x ∧ 0 < s.y then π / 4
         else if 0 < s.x ∧ s.y < 0 then -π / 4
         else if s.x < 0 ∧ 0 < s.y then 3 * π / 4 else -3 * π / 4)
        (3 * π / 4) l r) := by
  refine ⟨?_, ?_, ?_⟩
  · by_cases hx : 0 < s.x <;> simp [collisionStep, hx]
  · by_cases hy : 0 < s.y <;> simp [collisionStep, hy]
  · by_cases h1 : 0 < s.x ∧ 0 < s.y
    · simp [collisionStep, h1]
    · by_cases h2 : 0 < s.x ∧ s.y < 0
      · obtain ⟨hx, hy⟩ := h2
        simp [collisionStep, h1, hx, hy, not_lt.mpr hy.le]
      · by_cases h3 : s.x < 0 ∧ 0 < s.y
        · obtain ⟨hx, hy⟩ := h3
          simp [collisionStep, h1, h2, hx, hy, not_lt.mpr hx.le]
        · simp [collisionStep, h1, h2, h3]

/-- Counterexample to C4 as stated: a robot at `x = 2.5` (positive side,
vertical wall) is snapped to `2`, i.e. towards the field centre — the
nearest integer towards the positive-x field edge would be `3`. -/
theorem robot_wall_snap_cex :
    collisionStep defaultRobotParams ⟨2.5, 0, 0, 0⟩
      CollisionTypes.WALL_VERTICAL CollisionTypes.NO [] 0 0 =
      some ⟨2, 0, 0, 0⟩ ∧
    (2 : ℝ) < 2.5 ∧ (2 : ℝ) ≠ 3 := by
  have hround : npRound (2.5 : ℝ) = 2 := by
    unfold npRound
    have hfloor : ⌊(2.5 : ℝ)⌋ = 2 := by norm_num
    rw [hfloor]
    norm_num
  refine ⟨?_, by norm_num, by norm_num⟩
  have hx : (0 : ℝ) < 2.5 := by norm_num
  simp [collisionStep, hround, hx, stepWithRestrictions, robotStep,
    clipAngle_zero, defaultRobotParams]

/-- Witness for C7 at velocity `(1, 0)` (above the cutoff). -/
theorem spec_friction_monotone_witness :
    ¬((1 : ℝ) = 0 ∧ (0 : ℝ) = 0) ∧
    (∃ s' c, ballStep defaultBallParams ⟨0, 0, 1, 0⟩ = some s' ∧
      0 < c ∧ c ≤ 1 ∧ s'.vx = c * 1 ∧ s'.vy = c * 0 ∧
      Real.sqrt (s'.vx ^ 2 + s'.vy ^ 2) ≤
        Real.sqrt ((1 : ℝ) ^ 2 + (0 : ℝ) ^ 2) ∧
      (0.01 < 0.1 * Real.sqrt ((1 : ℝ) ^ 2 + (0 : ℝ) ^ 2) → c = 0.99) ∧
      (0.1 * Real.sqrt ((1 : ℝ) ^ 2 + (0 : ℝ) ^ 2) ≤ 0.01 → c = 1)) :=
  ⟨by norm_num, spec_friction_monotone 0 0 1 0 (by norm_num)⟩
